import Mathlib

/-!
Verification development for the trlogic_test image-upload microservice.

The Rust sources are shallowly embedded: pure string manipulation from
`src/file_utils.rs` becomes Lean functions on `String` / `List Char`;
the effectful parts (HTTP fetch, base64 decoding, file writes, locks)
become explicit oracles passed as function arguments, and the handlers
from `src/http_handlers.rs` / `src/thumbnail.rs` become functions that
return both their result and a trace of the effects they performed.
-/

namespace Trlogic

/-! ## String primitives (models of Rust std string operations) -/

/-- Model of Rust `str::split('/')`: splits a character list at every `'/'`,
always returning at least one (possibly empty) chunk, exactly like
`"".split('/') == [""]` and `"a//b".split('/') == ["a", "", "b"]`. -/
def splitOnSlash : List Char → List (List Char)
  | [] => [[]]
  | c :: rest =>
    match splitOnSlash rest with
    | [] => [[]]
    | h :: t => if c = '/' then [] :: h :: t else (c :: h) :: t

/-- Model of Rust `str::starts_with` on character lists. -/
def listStartsWith : List Char → List Char → Bool
  | _, [] => true
  | [], _ :: _ => false
  | c :: cs, p :: ps => c = p && listStartsWith cs ps

/-- ASCII lowercasing of one character. This models Rust `str::to_lowercase`
for the purposes of the `"image/"`-prefix test in `ext_for`: the two agree on
all ASCII input, and no non-ASCII character lowercases to any character of
`"image/"`, so the prefix test is unaffected by the restriction. -/
def asciiLower (c : Char) : Char :=
  if 65 ≤ c.toNat ∧ c.toNat ≤ 90 then Char.ofNat (c.toNat + 32) else c

/-- The Unicode `White_Space` property, as used by Rust `char::is_whitespace`
(and hence by `str::trim`). -/
def isRustWhitespace (c : Char) : Bool :=
  decide ((9 ≤ c.toNat ∧ c.toNat ≤ 13) ∨ c.toNat = 32 ∨ c.toNat = 133 ∨
    c.toNat = 160 ∨ c.toNat = 5760 ∨ (8192 ≤ c.toNat ∧ c.toNat ≤ 8202) ∨
    c.toNat = 8232 ∨ c.toNat = 8233 ∨ c.toNat = 8239 ∨ c.toNat = 8287 ∨
    c.toNat = 12288)

/-- Model of the Rust test `filename.trim().len() == 0` from
`normalize_image_filename` (src/file_utils.rs:59): trimming leaves nothing
exactly when every character is whitespace. -/
def trimIsEmpty (s : String) : Bool :=
  s.data.all isRustWhitespace

/-! ## file_utils.rs: ext_for and normalize_image_filename -/

/-- Embedding of the nested `ext_for` function of `normalize_image_filename`
(src/file_utils.rs:41-57): splits the content type on `'/'`; when the
lowercased string starts with `"image/"` and the split has exactly two parts,
maps the (case-sensitively matched) subtype through the known remaps,
returning unknown subtypes verbatim; otherwise returns `"bin"`.
The Rust `match` on `&str` patterns is rendered as a chain of equality
tests, which is what such a match compiles to. -/
def ext_for (content_type : String) : String :=
  let pair : List String := (splitOnSlash content_type.data).map String.mk
  if listStartsWith (content_type.data.map asciiLower) "image/".data ∧ pair.length = 2 then
    let sub := pair.getD 1 ""
    if sub = "jpeg" then "jpg"
    else if sub = "pjpeg" then "jpg"
    else if sub = "svg+xml" then "svg"
    else if sub = "tiff" then "tif"
    else if sub = "vnd.microsoft.icon" then "ico"
    else if sub = "vnd.wap.wbmp" then "wbmp"
    else if sub = "*" then "bin"
    else sub
  else "bin"

/-- Fixed-width zero-padded decimal rendering: `padNumAux w n` is the last `w`
decimal digits of `n`, zero-padded to exactly `w` characters. For `n < 10 ^ w`
this is precisely the zero-padded decimal rendering used by every chrono
fixed-width format item. -/
def padNumAux : Nat → Nat → List Char
  | 0, _ => []
  | w + 1, n => padNumAux w (n / 10) ++ [Nat.digitChar (n % 10)]

/-- A UTC instant as supplied by `chrono::Utc::now()`, carrying exactly the
fields consumed by the format string `"%y%m%d%H%M%S%6f"`
(src/file_utils.rs:62): two-digit year, month, day, hour, minute, second and
the six-digit microsecond part. -/
structure Timestamp where
  year2 : Nat
  month : Nat
  day : Nat
  hour : Nat
  minute : Nat
  second : Nat
  micro : Nat
deriving DecidableEq

/-- The field bounds chrono guarantees for the components printed by
`"%y%m%d%H%M%S%6f"` (leap seconds aside, which the service never relies on). -/
def Timestamp.valid (t : Timestamp) : Prop :=
  t.year2 < 100 ∧ 1 ≤ t.month ∧ t.month ≤ 12 ∧ 1 ≤ t.day ∧ t.day ≤ 31 ∧
  t.hour < 24 ∧ t.minute < 60 ∧ t.second < 60 ∧ t.micro < 1000000

/-- Embedding of `Utc::now().format("%y%m%d%H%M%S%6f")`: six two-digit
zero-padded fields followed by the six-digit microsecond field. -/
def Timestamp.format (t : Timestamp) : String :=
  String.mk (padNumAux 2 t.year2 ++ padNumAux 2 t.month ++ padNumAux 2 t.day ++
    padNumAux 2 t.hour ++ padNumAux 2 t.minute ++ padNumAux 2 t.second ++
    padNumAux 6 t.micro)

/-- Embedding of `normalize_image_filename` (src/file_utils.rs:35-78).
The current time is passed explicitly instead of being read from the clock. -/
def normalize_image_filename (now : Timestamp) (filename content_type : String) : String :=
  if trimIsEmpty filename then
    "untitled@" ++ now.format ++ "." ++ ext_for content_type
  else if !(filename.data.any (fun c => c = '.')) then
    filename ++ "." ++ ext_for content_type
  else
    filename

/-! ## http_handlers.rs: data model -/

/-- Embedding of `ImageUploadRequest` (src/http_handlers.rs:104-110): one JSON
batch item with four optional string fields. -/
structure ImageUploadRequest where
  filename : Option String
  content_type : Option String
  url : Option String
  data : Option String
deriving DecidableEq

/-- Embedding of `ImageUploadResult` (src/http_handlers.rs:95-102): the
per-item outcome returned to the caller. -/
structure ImageUploadResult where
  filename : String
  content_type : String
  size : Nat
  success : Bool
  reason : String
deriving DecidableEq

/-- An HTTP response as observed by `image_from_url`: the two headers it
consults and the byte stream of the body (bytes the connection can deliver). -/
structure HttpResponse where
  content_type : Option String
  content_length : Option String
  body : List Nat
deriving DecidableEq

/-- Model of Rust `str::parse::<usize>`: an optional leading `'+'`, then at
least one ASCII digit and nothing else, with the value required to fit in the
64-bit `usize` range. -/
def parseUsize (s : String) : Option Nat :=
  let l := match s.data with
    | '+' :: rest => rest
    | other => other
  if l ≠ [] ∧ l.all Char.isDigit then
    let v := l.foldl (fun acc c => acc * 10 + (c.toNat - 48)) 0
    if v < 2 ^ 64 then some v else none
  else none

/-! ## http_handlers.rs: the three source extractors -/

/-- Embedding of `image_from_base64_data` (src/http_handlers.rs:289-325).
The base64 decoder is the oracle `decode` (the external `base64` crate);
the clock is the explicit `now`. Besides the extraction result the function
returns the item as the Rust code leaves it: `item.content_type.take()`
clears the declared content type whenever `data` is present. -/
def image_from_base64_data (decode : String → Except String (List Nat))
    (now : Timestamp) (item : ImageUploadRequest) :
    Except String (String × String × List Nat) × ImageUploadRequest :=
  match item.data with
  | some d =>
    let content_type := item.content_type.getD "application/octet-stream"
    let item' := { item with content_type := none }
    let filename :=
      match item.filename with
      | some f => normalize_image_filename now f content_type
      | none => normalize_image_filename now "" content_type
    match decode d with
    | .ok bytes => (.ok (filename, content_type, bytes), item')
    | .error e => (.error e, item')
  | none => (.error "no image data", item)

/-- Embedding of `image_from_url` (src/http_handlers.rs:329-394). The network
is the oracle `http` (the external `mrq` crate); `.error e` from the oracle is
a transport failure with message `e`. Fidelity notes: `unwrap_or` evaluates
its argument eagerly, so `item.content_type.take()` runs — clearing the
declared content type — whenever a response arrives, regardless of whether
the `Content-Type` header is present; `read_exact` on a body shorter than
`Content-Length` fails with the std I/O message
`"failed to fill whole buffer"`, and otherwise fills the buffer with exactly
the first `Content-Length` body bytes. -/
def image_from_url (http : String → Except String HttpResponse)
    (now : Timestamp) (item : ImageUploadRequest) :
    Except String (String × String × List Nat) × ImageUploadRequest :=
  match item.url with
  | some url =>
    match http url with
    | .ok response =>
      let declared := item.content_type.getD ""
      let item' := { item with content_type := none }
      let content_type := response.content_type.getD declared
      if listStartsWith content_type.data "image/".data then
        match response.content_length with
        | some cl =>
          match parseUsize cl with
          | some n =>
            let filename :=
              match item.filename with
              | some f => normalize_image_filename now f content_type
              | none =>
                normalize_image_filename now
                  (String.mk ((splitOnSlash url.data).getLastD [])) content_type
            if n ≤ response.body.length then
              (.ok (filename, content_type, response.body.take n), item')
            else
              (.error "failed to fill whole buffer", item')
          | none => (.error "invalid content length in response", item')
        | none => (.error "invalid content length in response", item')
      else
        (.error "not an image", item')
    | .error e => (.error e, item)
  | none => (.error "image URL not specified", item)

/-- One multipart form field as handed to `image_from_multipart_field`:
the `FieldHeaders` data (field name, optional declared filename, optional raw
`Content-Type` header value) together with the field's byte stream. -/
structure MultipartField where
  name : String
  filename : Option String
  content_type : Option String
  data : List Nat
deriving DecidableEq

/-- Model of rendering a parsed `Mime` back to a string
(`content_type.to_string()` on the `Option<Mime>` held by `FieldHeaders`):
the external mime parser stores the type and subtype lowercased, so
`"image/PNG"` renders as `"image/png"` — the repository's own tests
(src/src/http_handlers.rs:417-418) pin this behaviour down. -/
def mimeToString (raw : String) : String :=
  String.mk (raw.data.map asciiLower)

/-- Embedding of `image_from_multipart_field` (src/http_handlers.rs:251-285):
requires a declared content type whose rendered form starts with `"image/"`,
normalizes the declared filename or, failing that, the field name, and
otherwise fails with `"no image data"`. -/
def image_from_multipart_field (now : Timestamp) (item : MultipartField) :
    Except String (String × String) :=
  match item.content_type with
  | some raw =>
    let content_type := mimeToString raw
    if listStartsWith content_type.data "image/".data then
      let filename :=
        match item.filename with
        | some f => f
        | none => item.name
      .ok (normalize_image_filename now filename content_type, content_type)
    else
      .error "no image data"
  | none => .error "no image data"

/-! ## http_handlers.rs: the two ingestion orchestrators

Each handler loop is embedded as a function that, besides the outcome list
it serialises into the HTTP response, returns the trace of side effects it
performed: each `write_image_data` call with its result, and each detached
thumbnail thread it spawned. JSON-body parsing and response serialisation
are the external `rouille`/`serde` collaborators and stay outside the model:
the handlers are modelled from the already-parsed item list onwards. -/

deriving instance DecidableEq for Except

/-- A side effect performed by an ingestion handler. -/
inductive Event
  | writeAttempt (path : String) (result : Except String Nat)
  | spawnThumb (path : String)
deriving DecidableEq

/-- Oracles for `handle_json_images_post`: the upload directory, the clock,
the base64 decoder, the network, and the filesystem write
(`write_image_data`, returning the byte count written or an I/O error). -/
structure JsonEnv where
  uploadRoot : String
  now : Timestamp
  decode : String → Except String (List Nat)
  http : String → Except String HttpResponse
  write : String → List Nat → Except String Nat

/-- The shared tail of both handlers after a successful extraction
(src/http_handlers.rs:146-167 and 206-227): set the target path inside the
upload root, call `write_image_data`, map its result to
`(success, size, reason)`, and spawn one detached thumbnail task for the
path — the spawn is unconditional in this branch, write failure included. -/
def afterExtract (uploadRoot : String) (write : String → List Nat → Except String Nat)
    (filename content_type : String) (bytes : List Nat) :
    ImageUploadResult × List Event :=
  let path := uploadRoot ++ "/" ++ filename
  match write path bytes with
  | .ok size =>
    ({ filename := filename, content_type := content_type, size := size,
       success := true, reason := "ok" },
     [.writeAttempt path (.ok size), .spawnThumb path])
  | .error e =>
    ({ filename := filename, content_type := content_type, size := 0,
       success := false, reason := "I/O error" },
     [.writeAttempt path (.error e), .spawnThumb path])

/-- The failure outcome pushed by the JSON handler (src/http_handlers.rs:
134-140 and 169-177): declared filename and content type, or empty strings
when undeclared, with `size = 0` and `success = false`. -/
def failureResult (item : ImageUploadRequest) (reason : String) : ImageUploadResult :=
  { filename := item.filename.getD "", content_type := item.content_type.getD "",
    size := 0, success := false, reason := reason }

/-- The body of the `for` loop of `handle_json_images_post`
(src/http_handlers.rs:128-179): dispatch on the populated fields — `data`
first, then `url`, else the `"nor url or data are specified"` failure — run
the selected extractor, and either persist-and-spawn or push the extractor's
failure. The extractor's view of the item (after its `take()` mutation) feeds
the failure outcome, exactly as the Rust closure mutates `item` in place. -/
def processJsonItem (env : JsonEnv) (item : ImageUploadRequest) :
    ImageUploadResult × List Event :=
  if item.data.isSome then
    match image_from_base64_data env.decode env.now item with
    | (.ok (fn, ct, bytes), _) => afterExtract env.uploadRoot env.write fn ct bytes
    | (.error e, item') => (failureResult item' e, [])
  else if item.url.isSome then
    match image_from_url env.http env.now item with
    | (.ok (fn, ct, bytes), _) => afterExtract env.uploadRoot env.write fn ct bytes
    | (.error e, item') => (failureResult item' e, [])
  else
    (failureResult item "nor url or data are specified", [])

/-- The accumulating loop of `handle_json_images_post`: one pass over the
items, pushing one outcome per item onto the `results` vector. -/
def jsonLoop (env : JsonEnv) (items : List ImageUploadRequest)
    (results : List ImageUploadResult) (events : List Event) :
    List ImageUploadResult × List Event :=
  match items with
  | [] => (results, events)
  | item :: rest =>
    jsonLoop env rest (results ++ [(processJsonItem env item).1])
      (events ++ (processJsonItem env item).2)

/-- Embedding of `handle_json_images_post` (src/http_handlers.rs:119-183)
from the parsed item list onwards. -/
def handle_json_images_post (env : JsonEnv) (items : List ImageUploadRequest) :
    List ImageUploadResult × List Event :=
  jsonLoop env items [] []

/-- Oracles for `handle_multipart_images_post`. -/
structure MultipartEnv where
  uploadRoot : String
  now : Timestamp
  write : String → List Nat → Except String Nat

/-- The body of the `while` loop of `handle_multipart_images_post`
(src/http_handlers.rs:204-243): run the multipart extractor, then either
persist-and-spawn, or push a failure outcome carrying the field name as
`filename` and the rendered declared content type (or `""`) as
`content_type`. -/
def processMultipartField (menv : MultipartEnv) (item : MultipartField) :
    ImageUploadResult × List Event :=
  match image_from_multipart_field menv.now item with
  | .ok (fn, ct) => afterExtract menv.uploadRoot menv.write fn ct item.data
  | .error e =>
    ({ filename := item.name,
       content_type := (item.content_type.map mimeToString).getD "",
       size := 0, success := false, reason := e }, [])

/-- The accumulating loop of `handle_multipart_images_post`. -/
def multipartLoop (menv : MultipartEnv) (fields : List MultipartField)
    (results : List ImageUploadResult) (events : List Event) :
    List ImageUploadResult × List Event :=
  match fields with
  | [] => (results, events)
  | f :: rest =>
    multipartLoop menv rest (results ++ [(processMultipartField menv f).1])
      (events ++ (processMultipartField menv f).2)

/-- Embedding of `handle_multipart_images_post` (src/http_handlers.rs:
191-247) from the parsed field sequence onwards. -/
def handle_multipart_images_post (menv : MultipartEnv) (fields : List MultipartField) :
    List ImageUploadResult × List Event :=
  multipartLoop menv fields [] []

/-! ## file_utils.rs: write_image_data -/

/-- One step observed on the target file handle during `write_image_data`.
`closed` is the drop of the `File` at function exit; fs2 advisory locks are
released by the operating system when the last handle to the file closes. -/
inductive FileEv
  | opened
  | locked
  | truncated
  | copied (n : Nat)
  | unlocked
  | unlockFailed
  | closed
deriving DecidableEq

/-- Outcomes of the five fallible filesystem operations `write_image_data`
performs, in program order: `open`, `lock_exclusive`, `set_len(0)`,
`io::copy`, `unlock`. `copyRes = .ok ()` means the copy ran to the end of
the source (in which case `io::copy` reports the full source length). -/
structure WriteEnv where
  openRes : Except String Unit
  lockRes : Except String Unit
  setLenRes : Except String Unit
  copyRes : Except String Unit
  unlockRes : Except String Unit

/-- Embedding of `write_image_data` (src/file_utils.rs:101-151): each `?`
early-returns the first I/O error; the `unlock` result is logged and
discarded, never replacing the primary result; the file handle is dropped
(closing it) on every path on which it was opened. -/
def write_image_data (env : WriteEnv) (source : List Nat) :
    Except String Nat × List FileEv :=
  match env.openRes with
  | .error e => (.error e, [])
  | .ok _ =>
    match env.lockRes with
    | .error e => (.error e, [.opened, .closed])
    | .ok _ =>
      match env.setLenRes with
      | .error e => (.error e, [.opened, .locked, .closed])
      | .ok _ =>
        let unlockEv := match env.unlockRes with
          | .ok _ => FileEv.unlocked
          | .error _ => FileEv.unlockFailed
        match env.copyRes with
        | .ok _ =>
          (.ok source.length,
           [.opened, .locked, .truncated, .copied source.length, unlockEv, .closed])
        | .error e =>
          (.error e, [.opened, .locked, .truncated, unlockEv, .closed])

/-- Whether the exclusive lock is still held after a trace of file events:
acquired by `locked`, released by a successful `unlock` or by the close of
the handle. -/
def lockHeldAfter (evs : List FileEv) : Bool :=
  evs.foldl (fun held ev =>
    match ev with
    | .locked => true
    | .unlocked => false
    | .closed => false
    | _ => held) false

/-! ## thumbnail.rs: make -/

/-- Outcomes of the five fallible operations in `thumbnail::make`, in program
order: `open` for read, `lock_shared`, `image::open` (decode),
`create_dir_all`, `save`. -/
structure ThumbEnv where
  openRes : Except String Unit
  lockRes : Except String Unit
  decodeRes : Except String Unit
  mkdirRes : Except String Unit
  saveRes : Except String Unit

/-- One step of `thumbnail::make`. -/
inductive ThumbEv
  | opened
  | lockedShared
  | decoded
  | unlockedShared
  | resized
  | madeDir
  | saved
deriving DecidableEq

/-- Model of Rust `Path::file_name` on a string path: the last component
that is a normal component; `none` when the path is empty, ends in a
separator-and-nothing-normal, or ends in `".."`. `"."` components are
skipped exactly as `Path::components` normalises them away. -/
def pathFileName (s : String) : Option String :=
  let comps := (splitOnSlash s.data).filter (fun c => c ≠ [] ∧ c ≠ ['.'])
  match comps.getLast? with
  | none => none
  | some c => if c = ['.', '.'] then none else some (String.mk c)

/-- Embedding of `thumbnail::make` (src/thumbnail.rs:6-84) as a trace
function: `some trace` is a normal (silent, log-only) return, `none` is the
panic of the `file_path.file_name().unwrap()` at src/thumbnail.rs:58, which
is reached only when the image decode succeeded. Every failing stage aborts
with a `some` trace; the shared lock is dropped right after the decode
attempt, on success and on failure alike. -/
def make (env : ThumbEnv) (path : String) : Option (List ThumbEv) :=
  match env.openRes with
  | .error _ => some []
  | .ok _ =>
    match env.lockRes with
    | .error _ => some [.opened]
    | .ok _ =>
      match env.decodeRes with
      | .error _ => some [.opened, .lockedShared, .unlockedShared]
      | .ok _ =>
        match pathFileName path with
        | none => none
        | some _ =>
          match env.mkdirRes with
          | .error _ =>
            some [.opened, .lockedShared, .decoded, .unlockedShared, .resized]
          | .ok _ =>
            match env.saveRes with
            | .error _ =>
              some [.opened, .lockedShared, .decoded, .unlockedShared, .resized,
                .madeDir]
            | .ok _ =>
              some [.opened, .lockedShared, .decoded, .unlockedShared, .resized,
                .madeDir, .saved]

/-! ## Helper lemmas -/

theorem digitChar_isDigit (m : Nat) (h : m < 10) : (Nat.digitChar m).isDigit = true := by
  interval_cases m <;> decide

theorem padNumAux_length (w n : Nat) : (padNumAux w n).length = w := by
  induction w generalizing n with
  | zero => rfl
  | succ w ih => simp [padNumAux, ih]

theorem padNumAux_digits (w n : Nat) : ∀ c ∈ padNumAux w n, c.isDigit = true := by
  induction w generalizing n with
  | zero => intro c hc; simp [padNumAux] at hc
  | succ w ih =>
    intro c hc
    simp only [padNumAux, List.mem_append, List.mem_singleton] at hc
    rcases hc with hc | hc
    · exact ih _ c hc
    · subst hc; exact digitChar_isDigit _ (Nat.mod_lt _ (by norm_num))

theorem format_length (t : Timestamp) : t.format.length = 18 := by
  simp [Timestamp.format, String.length, padNumAux_length]

theorem format_digits (t : Timestamp) : ∀ c ∈ t.format.data, c.isDigit = true := by
  intro c hc
  simp only [Timestamp.format, List.mem_append] at hc
  rcases hc with ((((((hc | hc) | hc) | hc) | hc) | hc) | hc) <;>
    exact padNumAux_digits _ _ c hc

theorem mk_data (s : String) : String.mk s.data = s := by
  cases s; rfl

theorem data_injective {s₁ s₂ : String} (h : s₁.data = s₂.data) : s₁ = s₂ := by
  cases s₁; cases s₂; exact congrArg String.mk h

theorem splitOnSlash_ne_nil (l : List Char) : splitOnSlash l ≠ [] := by
  induction l with
  | nil => simp [splitOnSlash]
  | cons c rest ih =>
    rcases h : splitOnSlash rest with _ | ⟨a, t⟩
    · exact absurd h ih
    · simp only [splitOnSlash, h]
      split <;> simp

theorem splitOnSlash_noSlash (l : List Char) (h : l.all (fun c => c ≠ '/') = true) :
    splitOnSlash l = [l] := by
  induction l with
  | nil => rfl
  | cons c rest ih =>
    simp only [List.all_cons, Bool.and_eq_true, decide_eq_true_eq] at h
    simp only [splitOnSlash]
    rw [ih h.2]
    simp [h.1]

theorem splitOnSlash_append (a b : List Char) (ha : a.all (fun c => c ≠ '/') = true) :
    splitOnSlash (a ++ '/' :: b) = a :: splitOnSlash b := by
  induction a with
  | nil =>
    rcases h : splitOnSlash b with _ | ⟨x, t⟩
    · exact absurd h (splitOnSlash_ne_nil b)
    · simp [splitOnSlash, h]
  | cons c rest ih =>
    simp only [List.all_cons, Bool.and_eq_true, decide_eq_true_eq] at ha
    have hstep : splitOnSlash (c :: (rest ++ '/' :: b)) =
        match splitOnSlash (rest ++ '/' :: b) with
        | [] => [[]]
        | h :: t => if c = '/' then [] :: h :: t else (c :: h) :: t := rfl
    rw [List.cons_append, hstep, ih ha.2]
    simp [ha.1]

theorem splitOnSlash_eq_single (l a : List Char) (h : splitOnSlash l = [a]) :
    l = a ∧ a.all (fun c => c ≠ '/') = true := by
  induction l generalizing a with
  | nil =>
    simp only [splitOnSlash, List.cons.injEq, and_true] at h
    subst h
    exact ⟨rfl, rfl⟩
  | cons c rest ih =>
    rcases hrest : splitOnSlash rest with _ | ⟨x, t⟩
    · exact absurd hrest (splitOnSlash_ne_nil rest)
    · simp only [splitOnSlash, hrest] at h
      by_cases hc : c = '/'
      · rw [if_pos hc] at h
        simp at h
      · rw [if_neg hc] at h
        simp only [List.cons.injEq] at h
        obtain ⟨h1, h2⟩ := h
        subst h2
        obtain ⟨hr, hall⟩ := ih x hrest
        subst hr
        refine ⟨h1, ?_⟩
        rw [← h1]
        simp only [List.all_cons, Bool.and_eq_true, decide_eq_true_eq]
        exact ⟨hc, hall⟩

theorem splitOnSlash_eq_pair (l a b : List Char) (h : splitOnSlash l = [a, b]) :
    l = a ++ '/' :: b ∧ a.all (fun c => c ≠ '/') = true ∧
      b.all (fun c => c ≠ '/') = true := by
  induction l generalizing a with
  | nil => simp [splitOnSlash] at h
  | cons c rest ih =>
    rcases hrest : splitOnSlash rest with _ | ⟨x, t⟩
    · exact absurd hrest (splitOnSlash_ne_nil rest)
    · simp only [splitOnSlash, hrest] at h
      by_cases hc : c = '/'
      · rw [if_pos hc] at h
        simp only [List.cons.injEq] at h
        obtain ⟨h1, h2⟩ := h
        subst h1
        have hx : splitOnSlash rest = [b] := by
          rw [hrest, h2.1, h2.2]
        obtain ⟨hr, hall⟩ := splitOnSlash_eq_single rest b hx
        subst hr hc
        constructor
        · rfl
        · constructor
          · rfl
          · exact hall
      · rw [if_neg hc] at h
        simp only [List.cons.injEq] at h
        obtain ⟨h1, h2⟩ := h
        have hx : splitOnSlash rest = [x, b] := by
          rw [hrest, h2]
        obtain ⟨hr, hax, hb⟩ := ih x hx
        subst hr
        rw [← h1]
        constructor
        · rfl
        · constructor
          · simp only [List.all_cons, Bool.and_eq_true, decide_eq_true_eq]
            exact ⟨hc, hax⟩
          · exact hb

theorem splitOnSlash_length (l : List Char) :
    (splitOnSlash l).length = l.count '/' + 1 := by
  induction l with
  | nil => rfl
  | cons c rest ih =>
    rcases hrest : splitOnSlash rest with _ | ⟨x, t⟩
    · exact absurd hrest (splitOnSlash_ne_nil rest)
    · rw [hrest] at ih
      simp only [List.length_cons] at ih
      by_cases hc : c = '/'
      · simp only [splitOnSlash, hrest, if_pos hc, List.length_cons, hc,
          List.count_cons]
        simp
        omega
      · simp only [splitOnSlash, hrest, if_neg hc, List.length_cons,
          List.count_cons]
        simp [hc]
        omega

theorem listStartsWith_append (a b : List Char) : listStartsWith (a ++ b) a = true := by
  induction a with
  | nil => cases b <;> rfl
  | cons c rest ih => simp [listStartsWith, ih]

theorem startsWith_sep_unique (a p rest : List Char)
    (ha : a.all (fun c => c ≠ '/') = true) (hp : p.all (fun c => c ≠ '/') = true)
    (h : listStartsWith (a ++ '/' :: rest) (p ++ ['/']) = true) : a = p := by
  induction a generalizing p with
  | nil =>
    cases p with
    | nil => rfl
    | cons q qs =>
      simp only [List.all_cons, Bool.and_eq_true, decide_eq_true_eq] at hp
      simp only [List.nil_append, List.cons_append, listStartsWith,
        Bool.and_eq_true, decide_eq_true_eq] at h
      exact absurd h.1.symm hp.1
  | cons c cs ih =>
    cases p with
    | nil =>
      simp only [List.all_cons, Bool.and_eq_true, decide_eq_true_eq] at ha
      simp only [List.nil_append, List.cons_append, listStartsWith,
        Bool.and_eq_true, decide_eq_true_eq] at h
      exact absurd h.1 ha.1
    | cons q qs =>
      simp only [List.all_cons, Bool.and_eq_true, decide_eq_true_eq] at ha hp
      simp only [List.cons_append, listStartsWith, Bool.and_eq_true,
        decide_eq_true_eq] at h
      have hqs := ih qs ha.2 hp.2 h.2
      rw [h.1, hqs]

theorem charOfNatToNat (n : Nat) (h : n < 55296) : (Char.ofNat n).toNat = n := by
  have hv : n.isValidChar := Or.inl h
  simp [Char.ofNat, hv, Char.ofNatAux, Char.toNat, UInt32.toNat, UInt32.ofNatCore]

theorem asciiLower_ne_slash {c : Char} (h : c ≠ '/') : asciiLower c ≠ '/' := by
  unfold asciiLower
  split
  · intro heq
    rename_i hr
    have hn : (Char.ofNat (c.toNat + 32)).toNat = c.toNat + 32 :=
      charOfNatToNat _ (by omega)
    rw [heq] at hn
    simp only [show ('/').toNat = 47 from rfl] at hn
    omega
  · exact h

theorem map_asciiLower_noSlash {l : List Char} (h : l.all (fun c => c ≠ '/') = true) :
    (l.map asciiLower).all (fun c => c ≠ '/') = true := by
  simp only [List.all_eq_true, decide_eq_true_eq] at h ⊢
  intro c hc
  simp only [List.mem_map] at hc
  obtain ⟨x, hx, rfl⟩ := hc
  exact asciiLower_ne_slash (h x hx)

/-! ## Claims about the filename normalizer -/

/-- C4: for every filename and content type, at any clock instant: an empty
or whitespace-only filename yields `"untitled@"` followed by an 18-digit
timestamp, a `"."`, and `ext_for contentType`; a non-whitespace filename
containing no `'.'` is returned with exactly one `"."` plus the resolved
extension appended; a filename containing a `'.'` is returned unchanged
regardless of content type. -/
theorem claim_C4_normalize_filename (now : Timestamp) (filename content_type : String) :
    (trimIsEmpty filename = true →
      normalize_image_filename now filename content_type =
        "untitled@" ++ now.format ++ "." ++ ext_for content_type ∧
      now.format.length = 18 ∧ ∀ c ∈ now.format.data, c.isDigit = true) ∧
    (trimIsEmpty filename = false → filename.data.any (fun c => c = '.') = false →
      normalize_image_filename now filename content_type =
        filename ++ "." ++ ext_for content_type) ∧
    (filename.data.any (fun c => c = '.') = true →
      normalize_image_filename now filename content_type = filename) := by
  refine ⟨?_, ?_, ?_⟩
  · intro h
    refine ⟨?_, format_length now, format_digits now⟩
    simp [normalize_image_filename, h]
  · intro h1 h2
    simp [normalize_image_filename, h1, h2]
  · intro h
    have hws : trimIsEmpty filename = false := by
      cases hws : trimIsEmpty filename with
      | false => rfl
      | true =>
        exfalso
        obtain ⟨c, hc, hceq⟩ := List.any_eq_true.mp h
        have hc' : c = '.' := of_decide_eq_true hceq
        subst hc'
        simp only [trimIsEmpty] at hws
        have hd := List.all_eq_true.mp hws '.' hc
        exact absurd hd (by decide)
    simp [normalize_image_filename, hws, h]

/-- Concrete instance of C4: all three normalization branches at explicit
inputs, matching the doctests of src/file_utils.rs. -/
theorem claim_C4_witness :
    normalize_image_filename ⟨19, 8, 15, 12, 30, 45, 123456⟩ "" "image/jpeg" =
      "untitled@190815123045123456.jpg" ∧
    normalize_image_filename ⟨19, 8, 15, 12, 30, 45, 123456⟩ "partial" "image/jpeg" =
      "partial.jpg" ∧
    normalize_image_filename ⟨19, 8, 15, 12, 30, 45, 123456⟩ "concrete.jpg" "image/png" =
      "concrete.jpg" := by
  have h1 := claim_C4_normalize_filename ⟨19, 8, 15, 12, 30, 45, 123456⟩ "" "image/jpeg"
  have h2 := claim_C4_normalize_filename ⟨19, 8, 15, 12, 30, 45, 123456⟩ "partial" "image/jpeg"
  have h3 := claim_C4_normalize_filename ⟨19, 8, 15, 12, 30, 45, 123456⟩ "concrete.jpg" "image/png"
  refine ⟨?_, ?_, ?_⟩
  · rw [(h1.1 (by decide)).1]
    decide
  · rw [h2.2.1 (by decide) (by decide)]
    decide
  · rw [h3.2.2 (by decide)]

theorem decomp_facts (s t sub : String) (hs : s = t ++ "/" ++ sub)
    (hlow : String.mk (t.data.map asciiLower) = "image")
    (hsub : sub.data.all (fun c => c ≠ '/') = true) :
    splitOnSlash s.data = [t.data, sub.data] ∧
    listStartsWith (s.data.map asciiLower) "image/".data = true := by
  have htl : t.data.map asciiLower = "image".data := congrArg String.data hlow
  have ht : t.data.all (fun c => c ≠ '/') = true := by
    rw [List.all_eq_true]
    intro c hc
    simp only [decide_eq_true_eq]
    intro hceq
    subst hceq
    have hmem : asciiLower '/' ∈ t.data.map asciiLower := List.mem_map_of_mem _ hc
    rw [htl] at hmem
    have hsl : asciiLower '/' = '/' := by decide
    rw [hsl] at hmem
    exact absurd hmem (by decide)
  have hdata : s.data = t.data ++ '/' :: sub.data := by
    rw [hs]
    simp [String.data_append]
  refine ⟨?_, ?_⟩
  · rw [hdata, splitOnSlash_append _ _ ht, splitOnSlash_noSlash _ hsub]
  · rw [hdata]
    simp only [List.map_append, List.map_cons]
    rw [htl, show asciiLower '/' = '/' from by decide, List.append_cons,
      show ("image".data : List Char) ++ ['/'] = "image/".data from by decide]
    exact listStartsWith_append _ _

/-- C5: `ext_for` returns the documented remap (with unknown subtypes passed
through verbatim) exactly on strings of the shape `<image>/<subtype>` whose
first part lowercases to `"image"` and whose subtype part is slash-free; on
every other string — empty, not `image/`-prefixed, or multi-slash — it
returns `"bin"`. The third conjunct bridges the quantified "no such
decomposition" condition to its decidable equivalent (lowercased
`"image/"`-prefix test plus a single-slash count), which the negative-case
witnesses use. -/
theorem claim_C5_ext_for (s : String) :
    (∀ t sub : String, s = t ++ "/" ++ sub →
      String.mk (t.data.map asciiLower) = "image" →
      sub.data.all (fun c => c ≠ '/') = true →
      ext_for s =
        (if sub = "jpeg" then "jpg" else if sub = "pjpeg" then "jpg"
         else if sub = "svg+xml" then "svg" else if sub = "tiff" then "tif"
         else if sub = "vnd.microsoft.icon" then "ico"
         else if sub = "vnd.wap.wbmp" then "wbmp"
         else if sub = "*" then "bin" else sub)) ∧
    ((∀ t sub : String, ¬(s = t ++ "/" ++ sub ∧
        String.mk (t.data.map asciiLower) = "image" ∧
        sub.data.all (fun c => c ≠ '/') = true)) →
      ext_for s = "bin") ∧
    (¬(listStartsWith (s.data.map asciiLower) "image/".data = true ∧
        s.data.count '/' = 1) →
      ∀ t sub : String, ¬(s = t ++ "/" ++ sub ∧
        String.mk (t.data.map asciiLower) = "image" ∧
        sub.data.all (fun c => c ≠ '/') = true)) := by
  refine ⟨?_, ?_, ?_⟩
  · intro t sub hs hlow hsub
    obtain ⟨hsplit, hstart⟩ := decomp_facts s t sub hs hlow hsub
    simp only [ext_for, hsplit, hstart, List.map_cons, List.map_nil, mk_data,
      List.length_cons, List.length_nil]
    norm_num
  · intro hno
    by_cases hcond : listStartsWith (s.data.map asciiLower) "image/".data = true ∧
        ((splitOnSlash s.data).map String.mk).length = 2
    · exfalso
      obtain ⟨hst, hlen⟩ := hcond
      rw [List.length_map] at hlen
      rcases hsp : splitOnSlash s.data with _ | ⟨a, rest⟩
      · exact absurd hsp (splitOnSlash_ne_nil _)
      · rcases rest with _ | ⟨b, rest2⟩
        · rw [hsp] at hlen; simp at hlen
        · rcases rest2 with _ | ⟨x, rest3⟩
          · obtain ⟨hd, haA, hbB⟩ := splitOnSlash_eq_pair _ _ _ hsp
            have hst' : listStartsWith ((a.map asciiLower) ++ '/' ::
                (b.map asciiLower)) ("image".data ++ ['/']) = true := by
              have hmap : s.data.map asciiLower =
                  (a.map asciiLower) ++ '/' :: (b.map asciiLower) := by
                rw [hd]
                simp [show asciiLower '/' = '/' from by decide]
              rw [← hmap,
                show ("image".data : List Char) ++ ['/'] = "image/".data from by decide]
              exact hst
            have hlowa := startsWith_sep_unique (a.map asciiLower) "image".data
              (b.map asciiLower) (map_asciiLower_noSlash haA) (by decide) hst'
            refine hno (String.mk a) (String.mk b) ⟨?_, ?_, ?_⟩
            · apply data_injective
              simp [String.data_append, hd]
            · exact congrArg String.mk hlowa
            · exact hbB
          · rw [hsp] at hlen; simp at hlen
    · simp only [ext_for]
      rw [if_neg]
      intro hcc
      exact hcond ⟨hcc.1, hcc.2⟩
  · rintro hno t sub ⟨hs, hlow, hsub⟩
    obtain ⟨hsplit, hstart⟩ := decomp_facts s t sub hs hlow hsub
    have hcount : s.data.count '/' = 1 := by
      have hlen := splitOnSlash_length s.data
      rw [hsplit] at hlen
      simp at hlen
      omega
    exact hno ⟨hstart, hcount⟩

/-- Concrete instance of C5: the documented remaps, a verbatim unknown
subtype, and the `"bin"` fallback cases at explicit inputs. -/
theorem claim_C5_witness :
    ext_for "image/jpeg" = "jpg" ∧ ext_for "image/vnd.microsoft.icon" = "ico" ∧
    ext_for "IMAGE/JPEG" = "JPEG" ∧ ext_for "text/plain" = "bin" ∧
    ext_for "" = "bin" ∧ ext_for "image/a/b" = "bin" := by
  have h1 := (claim_C5_ext_for "image/jpeg").1 "image" "jpeg" (by decide) (by decide) (by decide)
  have h2 := (claim_C5_ext_for "image/vnd.microsoft.icon").1 "image" "vnd.microsoft.icon"
    (by decide) (by decide) (by decide)
  have h3 := (claim_C5_ext_for "IMAGE/JPEG").1 "IMAGE" "JPEG" (by decide) (by decide) (by decide)
  have h4 := (claim_C5_ext_for "text/plain").2.1
    ((claim_C5_ext_for "text/plain").2.2 (by decide))
  have h5 := (claim_C5_ext_for "").2.1 ((claim_C5_ext_for "").2.2 (by decide))
  have h6 := (claim_C5_ext_for "image/a/b").2.1
    ((claim_C5_ext_for "image/a/b").2.2 (by decide))
  refine ⟨?_, ?_, ?_, h4, h5, h6⟩
  · rw [h1]; decide
  · rw [h2]; decide
  · rw [h3]; decide

/-! ## Claims about the locked file writer and the thumbnail generator -/

/-- C2: `write_image_data` returns the full source length on success and the
first I/O error otherwise; the exclusive lock is never still held when the
function returns, on any path; on the copy-failure path the explicit unlock
call still happens before the handle closes; and the unlock result never
changes the primary result. -/
theorem claim_C2_write_image_data (env : WriteEnv) (source : List Nat) :
    (∀ n, (write_image_data env source).1 = .ok n → n = source.length) ∧
    lockHeldAfter (write_image_data env source).2 = false ∧
    (∀ e, env.openRes = .error e → (write_image_data env source).1 = .error e) ∧
    (∀ e, env.openRes = .ok () → env.lockRes = .error e →
      (write_image_data env source).1 = .error e) ∧
    (∀ e, env.openRes = .ok () → env.lockRes = .ok () → env.setLenRes = .error e →
      (write_image_data env source).1 = .error e) ∧
    (∀ e, env.openRes = .ok () → env.lockRes = .ok () → env.setLenRes = .ok () →
      env.copyRes = .error e →
      (write_image_data env source).1 = .error e ∧
      (FileEv.unlocked ∈ (write_image_data env source).2 ∨
        FileEv.unlockFailed ∈ (write_image_data env source).2)) ∧
    (∀ u, (write_image_data { env with unlockRes := u } source).1 =
      (write_image_data env source).1) := by
  obtain ⟨o, lk, sl, cp, ul⟩ := env
  rcases o with oe | u1 <;> rcases lk with le | u2 <;> rcases sl with se | u3 <;>
    rcases cp with ce | u4 <;> rcases ul with ue | u5 <;>
    refine ⟨?_, ?_, ?_, ?_, ?_, ?_, ?_⟩ <;> intros <;>
    simp_all [write_image_data, lockHeldAfter]

/-- Concrete instance of C2: a copy failure at an explicit input still ends
with the explicit unlock in the trace, the lock not held at return, and the
copy error as the primary result. -/
theorem claim_C2_witness :
    (write_image_data ⟨.ok (), .ok (), .ok (), .error "disk full", .ok ()⟩
      [1, 2, 3]).1 = .error "disk full" ∧
    (FileEv.unlocked ∈ (write_image_data ⟨.ok (), .ok (), .ok (),
        .error "disk full", .ok ()⟩ [1, 2, 3]).2 ∨
      FileEv.unlockFailed ∈ (write_image_data ⟨.ok (), .ok (), .ok (),
        .error "disk full", .ok ()⟩ [1, 2, 3]).2) ∧
    lockHeldAfter (write_image_data ⟨.ok (), .ok (), .ok (), .error "disk full",
      .ok ()⟩ [1, 2, 3]).2 = false := by
  have h := claim_C2_write_image_data
    ⟨.ok (), .ok (), .ok (), .error "disk full", .ok ()⟩ [1, 2, 3]
  have h6 := h.2.2.2.2.2.1 "disk full" rfl rfl rfl rfl
  exact ⟨h6.1, h6.2, h.2.1⟩

/-- C9: `thumbnail::make` returns unit without panicking and without
propagating any error: failure to open, to acquire the shared lock, to
decode, to create the thumbnails directory, or to save each produces a
silent (log-only) return with the corresponding truncated trace. The
`file_name().unwrap()` at src/thumbnail.rs:58 sits after the decode, so the
no-panic guarantee is stated under the filesystem fact that an image decode
can only succeed on a path with a final file-name component (a path without
one names a directory or nothing, and `image::open` fails on it). -/
theorem claim_C9_thumbnail_silent (env : ThumbEnv) (path : String)
    (hfs : env.decodeRes = .ok () → (pathFileName path).isSome = true) :
    (make env path).isSome = true ∧
    (∀ e, env.openRes = .error e → make env path = some []) ∧
    (∀ e, env.openRes = .ok () → env.lockRes = .error e →
      make env path = some [.opened]) ∧
    (∀ e, env.openRes = .ok () → env.lockRes = .ok () → env.decodeRes = .error e →
      make env path = some [.opened, .lockedShared, .unlockedShared]) ∧
    (∀ e, env.openRes = .ok () → env.lockRes = .ok () → env.decodeRes = .ok () →
      env.mkdirRes = .error e →
      make env path =
        some [.opened, .lockedShared, .decoded, .unlockedShared, .resized]) ∧
    (∀ e, env.openRes = .ok () → env.lockRes = .ok () → env.decodeRes = .ok () →
      env.mkdirRes = .ok () → env.saveRes = .error e →
      make env path = some [.opened, .lockedShared, .decoded, .unlockedShared,
        .resized, .madeDir]) ∧
    (env.openRes = .ok () → env.lockRes = .ok () → env.decodeRes = .ok () →
      env.mkdirRes = .ok () → env.saveRes = .ok () →
      make env path = some [.opened, .lockedShared, .decoded, .unlockedShared,
        .resized, .madeDir, .saved]) := by
  obtain ⟨o, lk, dec, mkd, sv⟩ := env
  dsimp only at hfs
  rcases dec with de | u3
  · rcases o with oe | u1 <;> rcases lk with le | u2 <;>
      rcases mkd with me | u4 <;> rcases sv with se | u5 <;>
      refine ⟨?_, ?_, ?_, ?_, ?_, ?_, ?_⟩ <;> intros <;> simp_all [make]
  · obtain ⟨fn, hp⟩ := Option.isSome_iff_exists.mp (hfs rfl)
    rcases o with oe | u1 <;> rcases lk with le | u2 <;>
      rcases mkd with me | u4 <;> rcases sv with se | u5 <;>
      refine ⟨?_, ?_, ?_, ?_, ?_, ?_, ?_⟩ <;> intros <;> simp_all [make]

/-- Concrete instance of C9: a decode failure at an explicit path aborts
silently after releasing the shared lock, and an all-success run saves the
thumbnail, again returning unit. -/
theorem claim_C9_witness :
    make ⟨.ok (), .ok (), .error "corrupt image", .ok (), .ok ()⟩ "up/img.jpg" =
      some [.opened, .lockedShared, .unlockedShared] ∧
    make ⟨.ok (), .ok (), .ok (), .ok (), .ok ()⟩ "up/img.jpg" =
      some [.opened, .lockedShared, .decoded, .unlockedShared, .resized,
        .madeDir, .saved] := by
  have h1 := claim_C9_thumbnail_silent
    ⟨.ok (), .ok (), .error "corrupt image", .ok (), .ok ()⟩ "up/img.jpg"
    (by intro h; cases h)
  have h2 := claim_C9_thumbnail_silent
    ⟨.ok (), .ok (), .ok (), .ok (), .ok ()⟩ "up/img.jpg" (by intro h; decide)
  exact ⟨h1.2.2.2.1 "corrupt image" rfl rfl rfl,
    h2.2.2.2.2.2.2 rfl rfl rfl rfl rfl⟩

/-! ## Claims about the URL and multipart extractors -/

/-- C6: for a URL item whose HTTP GET yields a response, the content type is
resolved from the response header, falling back to the declared content type
only when the header is absent (the resolved value used below is exactly
`resp.content_type.getD (item.content_type.getD "")`); a resolved type not
starting with `"image/"` fails with `"not an image"`; an absent or
unparseable `Content-Length` fails with
`"invalid content length in response"`; otherwise the extractor returns a
buffer of exactly `Content-Length` bytes, and a body shorter than that
surfaces the `read_exact` I/O error. -/
theorem claim_C6_image_from_url (http : String → Except String HttpResponse)
    (now : Timestamp) (item : ImageUploadRequest) (u : String) (resp : HttpResponse)
    (hu : item.url = some u) (hr : http u = .ok resp) :
    (listStartsWith (resp.content_type.getD (item.content_type.getD "")).data
        "image/".data = false →
      (image_from_url http now item).1 = .error "not an image") ∧
    (listStartsWith (resp.content_type.getD (item.content_type.getD "")).data
        "image/".data = true →
      resp.content_length = none →
      (image_from_url http now item).1 =
        .error "invalid content length in response") ∧
    (∀ cl, listStartsWith (resp.content_type.getD (item.content_type.getD "")).data
        "image/".data = true →
      resp.content_length = some cl → parseUsize cl = none →
      (image_from_url http now item).1 =
        .error "invalid content length in response") ∧
    (∀ cl n, listStartsWith (resp.content_type.getD (item.content_type.getD "")).data
        "image/".data = true →
      resp.content_length = some cl → parseUsize cl = some n →
      n ≤ resp.body.length →
      (image_from_url http now item).1 =
        .ok ((match item.filename with
              | some f => normalize_image_filename now f
                  (resp.content_type.getD (item.content_type.getD ""))
              | none => normalize_image_filename now
                  (String.mk ((splitOnSlash u.data).getLastD []))
                  (resp.content_type.getD (item.content_type.getD ""))),
          resp.content_type.getD (item.content_type.getD ""),
          resp.body.take n) ∧
      (resp.body.take n).length = n) ∧
    (∀ cl n, listStartsWith (resp.content_type.getD (item.content_type.getD "")).data
        "image/".data = true →
      resp.content_length = some cl → parseUsize cl = some n →
      resp.body.length < n →
      (image_from_url http now item).1 = .error "failed to fill whole buffer") := by
  refine ⟨?_, ?_, ?_, ?_, ?_⟩
  · intro hb
    simp [image_from_url, hu, hr, hb]
  · intro hb hcl
    simp [image_from_url, hu, hr, hb, hcl]
  · intro cl hb hcl hp
    simp [image_from_url, hu, hr, hb, hcl, hp]
  · intro cl n hb hcl hp hle
    constructor
    · simp only [image_from_url, hu, hr, hcl, hp, hb, if_pos, if_true]
      rw [if_pos hle]
    · rw [List.length_take]
      omega
  · intro cl n hb hcl hp hlt
    simp only [image_from_url, hu, hr, hcl, hp, hb, if_pos, if_true]
    rw [if_neg (by omega)]

/-- Concrete instances of C6: the non-image failure, missing length failure,
unparseable length failure, exact-length success, and short-read failure at
explicit inputs. -/
theorem claim_C6_witness :
    (image_from_url (fun _ => .ok ⟨some "text/html", some "3", [1, 2, 3]⟩)
      ⟨19, 8, 15, 12, 30, 45, 123456⟩
      ⟨none, none, some "http://x/y", none⟩).1 = .error "not an image" ∧
    (image_from_url (fun _ => .ok ⟨some "image/png", none, [1, 2, 3]⟩)
      ⟨19, 8, 15, 12, 30, 45, 123456⟩
      ⟨none, none, some "http://x/y", none⟩).1 =
        .error "invalid content length in response" ∧
    (image_from_url (fun _ => .ok ⟨some "image/png", some "3a", [1, 2, 3]⟩)
      ⟨19, 8, 15, 12, 30, 45, 123456⟩
      ⟨none, none, some "http://x/y", none⟩).1 =
        .error "invalid content length in response" ∧
    (image_from_url (fun _ => .ok ⟨some "image/png", some "3", [7, 7, 7, 9]⟩)
      ⟨19, 8, 15, 12, 30, 45, 123456⟩
      ⟨none, none, some "http://x/y", none⟩).1 =
        .ok ("y.png", "image/png", [7, 7, 7]) ∧
    (image_from_url (fun _ => .ok ⟨some "image/png", some "5", [7]⟩)
      ⟨19, 8, 15, 12, 30, 45, 123456⟩
      ⟨none, none, some "http://x/y", none⟩).1 =
        .error "failed to fill whole buffer" := by
  refine ⟨?_, ?_, ?_, ?_, ?_⟩
  · exact (claim_C6_image_from_url _ _ _ "http://x/y" _ rfl rfl).1 (by decide)
  · exact (claim_C6_image_from_url _ _ _ "http://x/y" _ rfl rfl).2.1 (by decide) rfl
  · exact (claim_C6_image_from_url _ _ _ "http://x/y" _ rfl rfl).2.2.1 "3a"
      (by decide) rfl (by decide)
  · have h := (claim_C6_image_from_url
      (fun _ => .ok ⟨some "image/png", some "3", [7, 7, 7, 9]⟩)
      ⟨19, 8, 15, 12, 30, 45, 123456⟩ ⟨none, none, some "http://x/y", none⟩
      "http://x/y" ⟨some "image/png", some "3", [7, 7, 7, 9]⟩ rfl rfl).2.2.2.1
      "3" 3 (by decide) rfl (by decide) (by decide)
    rw [h.1]
    decide
  · exact (claim_C6_image_from_url _ _ _ "http://x/y" _ rfl rfl).2.2.2.2 "5" 5
      (by decide) rfl (by decide) (by decide)

/-- C7: the multipart extractor succeeds exactly when the field declares a
content type whose rendered (mime-normalised) form starts with `"image/"`,
failing with `"no image data"` otherwise; on success the filename is the
normalisation of the declared filename or, when absent, of the field name. -/
theorem claim_C7_multipart_extractor (now : Timestamp) (field : MultipartField) :
    (∀ raw, field.content_type = some raw →
      listStartsWith (mimeToString raw).data "image/".data = true →
      image_from_multipart_field now field =
        .ok (normalize_image_filename now (field.filename.getD field.name)
          (mimeToString raw), mimeToString raw)) ∧
    (field.content_type = none →
      image_from_multipart_field now field = .error "no image data") ∧
    (∀ raw, field.content_type = some raw →
      listStartsWith (mimeToString raw).data "image/".data = false →
      image_from_multipart_field now field = .error "no image data") := by
  refine ⟨?_, ?_, ?_⟩
  · intro raw hct hb
    cases hf : field.filename with
    | none => simp [image_from_multipart_field, hct, hb, hf]
    | some f => simp [image_from_multipart_field, hct, hb, hf]
  · intro hct
    simp [image_from_multipart_field, hct]
  · intro raw hct hb
    simp [image_from_multipart_field, hct, hb]

/-- Concrete instance of C7, the end-to-end scenario fields: a
`Content-Type: image/PNG` field named `file-from-name` with no declared
filename yields `file-from-name.png`, and a `text/plain` field fails with
`"no image data"`. -/
theorem claim_C7_witness :
    image_from_multipart_field ⟨19, 8, 15, 12, 30, 45, 123456⟩
      ⟨"file-from-name", none, some "image/PNG", [1, 2, 3]⟩ =
      .ok ("file-from-name.png", "image/png") ∧
    image_from_multipart_field ⟨19, 8, 15, 12, 30, 45, 123456⟩
      ⟨"not-an-image", none, some "text/plain", [4, 5]⟩ =
      .error "no image data" := by
  constructor
  · rw [(claim_C7_multipart_extractor ⟨19, 8, 15, 12, 30, 45, 123456⟩
      ⟨"file-from-name", none, some "image/PNG", [1, 2, 3]⟩).1 "image/PNG" rfl
      (by decide)]
    decide
  · exact (claim_C7_multipart_extractor ⟨19, 8, 15, 12, 30, 45, 123456⟩
      ⟨"not-an-image", none, some "text/plain", [4, 5]⟩).2.2 "text/plain" rfl
      (by decide)

/-! ## Claims about the batch orchestrators -/

theorem jsonLoop_spec (env : JsonEnv) (items : List ImageUploadRequest)
    (acc : List ImageUploadResult) (evs : List Event) :
    (jsonLoop env items acc evs).1 =
      acc ++ items.map (fun item => (processJsonItem env item).1) ∧
    (jsonLoop env items acc evs).2 =
      evs ++ items.flatMap (fun item => (processJsonItem env item).2) := by
  induction items generalizing acc evs with
  | nil => simp [jsonLoop]
  | cons item rest ih =>
    simp only [jsonLoop, List.map_cons, List.flatMap_cons]
    rw [(ih _ _).1, (ih _ _).2]
    simp [List.append_assoc]

theorem multipartLoop_spec (menv : MultipartEnv) (fields : List MultipartField)
    (acc : List ImageUploadResult) (evs : List Event) :
    (multipartLoop menv fields acc evs).1 =
      acc ++ fields.map (fun f => (processMultipartField menv f).1) ∧
    (multipartLoop menv fields acc evs).2 =
      evs ++ fields.flatMap (fun f => (processMultipartField menv f).2) := by
  induction fields generalizing acc evs with
  | nil => simp [multipartLoop]
  | cons f rest ih =>
    simp only [multipartLoop, List.map_cons, List.flatMap_cons]
    rw [(ih _ _).1, (ih _ _).2]
    simp [List.append_assoc]

/-- C1: the JSON handler returns exactly one outcome per input item, in input
order (the outcome at index `i` is the processing of the item at index `i`);
an item with neither `url` nor `data` populated yields the
`"nor url or data are specified"` failure outcome with `success = false` and
`size = 0`, and every other item of the batch still gets its own outcome. -/
theorem claim_C1_json_batch (env : JsonEnv) (items : List ImageUploadRequest) :
    (handle_json_images_post env items).1.length = items.length ∧
    (∀ (i : Nat) (item : ImageUploadRequest), items[i]? = some item →
      (handle_json_images_post env items).1[i]? =
        some (processJsonItem env item).1) ∧
    (∀ (i : Nat) (item : ImageUploadRequest), items[i]? = some item →
      item.data = none → item.url = none →
      (handle_json_images_post env items).1[i]? =
        some { filename := item.filename.getD "",
               content_type := item.content_type.getD "", size := 0,
               success := false,
               reason := "nor url or data are specified" }) := by
  have hres := (jsonLoop_spec env items [] []).1
  refine ⟨?_, ?_, ?_⟩
  · simp only [handle_json_images_post]
    rw [hres]
    simp
  · intro i item hi
    simp only [handle_json_images_post]
    rw [hres]
    simp [List.getElem?_map, hi]
  · intro i item hi hd hu
    simp only [handle_json_images_post]
    rw [hres]
    simp [List.getElem?_map, hi, processJsonItem, hd, hu, failureResult]

/-- Witness fixture: a clock instant. -/
def tsW : Timestamp := ⟨19, 8, 15, 12, 30, 45, 123456⟩

/-- Witness fixture: decode succeeds with the bytes of `"TEST"`, the network
is unreachable, writes succeed reporting the full payload length. -/
def envW : JsonEnv :=
  ⟨"up", tsW, fun _ => .ok [84, 69, 83, 84], fun _ => .error "connection refused",
    fun _ bytes => .ok bytes.length⟩

/-- Witness fixture: the end-to-end scenario-1 batch — an unreachable URL
item, a valid base64 item, an empty item. -/
def itemsW : List ImageUploadRequest :=
  [⟨none, none, some "http://unreachable/x", none⟩,
   ⟨some "valid_base64", none, none, some "VEVTVA=="⟩,
   ⟨none, none, none, none⟩]

/-- Concrete instance of C1, the end-to-end scenario: a batch of an
unreachable URL item, a valid base64 item, and an empty item produces
outcomes `[false, true, false]` with the third reason exactly
`"nor url or data are specified"`. -/
theorem claim_C1_witness :
    (handle_json_images_post envW itemsW).1.map (fun r => r.success) =
      [false, true, false] ∧
    ((handle_json_images_post envW itemsW).1)[2]? =
      some { filename := "", content_type := "", size := 0, success := false,
             reason := "nor url or data are specified" } := by
  constructor
  · decide
  · exact (claim_C1_json_batch envW itemsW).2.2 2 ⟨none, none, none, none⟩ rfl rfl rfl

/-- C10: when `data` is present the base64 extractor is dispatched and the
`url` field is entirely ignored (the item processes identically under any
replacement of its `url`); the URL extractor runs exactly when `data` is
absent and `url` is present. -/
theorem claim_C10_dispatch (env : JsonEnv) (item : ImageUploadRequest) :
    (item.data.isSome = true → ∀ u,
      processJsonItem env item = processJsonItem env { item with url := u }) ∧
    (item.data.isSome = true →
      processJsonItem env item =
        (match image_from_base64_data env.decode env.now item with
         | (.ok (fn, ct, bytes), _) => afterExtract env.uploadRoot env.write fn ct bytes
         | (.error e, item') => (failureResult item' e, []))) ∧
    (item.data = none → item.url.isSome = true →
      processJsonItem env item =
        (match image_from_url env.http env.now item with
         | (.ok (fn, ct, bytes), _) => afterExtract env.uploadRoot env.write fn ct bytes
         | (.error e, item') => (failureResult item' e, []))) := by
  refine ⟨?_, ?_, ?_⟩
  · intro hd u
    obtain ⟨f, c, ur, d⟩ := item
    rcases d with _ | dv
    · simp at hd
    · simp only [processJsonItem, image_from_base64_data]
      cases hdec : env.decode dv <;> simp [afterExtract, failureResult]
  · intro hd
    simp [processJsonItem, hd]
  · intro hd hu
    simp [processJsonItem, hd, hu]

/-- Concrete instance of C10: an item with both `data` and `url` populated
processes identically when its `url` is dropped, and its outcome is the
base64 one (a successful write). -/
theorem claim_C10_witness :
    processJsonItem envW
      ⟨some "a.png", some "image/png", some "http://x/ignored", some "AAE="⟩ =
    processJsonItem envW ⟨some "a.png", some "image/png", none, some "AAE="⟩ ∧
    (processJsonItem envW
      ⟨some "a.png", some "image/png", some "http://x/ignored", some "AAE="⟩).1.success =
      true := by
  constructor
  · exact (claim_C10_dispatch envW
      ⟨some "a.png", some "image/png", some "http://x/ignored", some "AAE="⟩).1 rfl none
  · decide

/-- Oracle error strings are genuine failure messages: never `"ok"` and never
empty. This holds for the real collaborators (base64 `DecodeError` display
strings and `mrq` transport errors are non-empty English messages). -/
def JsonEnv.goodErrors (env : JsonEnv) : Prop :=
  (∀ s e, env.decode s = .error e → e ≠ "ok" ∧ e ≠ "") ∧
  (∀ u e, env.http u = .error e → e ≠ "ok" ∧ e ≠ "")

theorem afterExtract_invariant (root : String)
    (w : String → List Nat → Except String Nat) (fn ct : String) (bytes : List Nat) :
    ((afterExtract root w fn ct bytes).1.success = true →
      (afterExtract root w fn ct bytes).1.reason = "ok" ∧
      Event.writeAttempt (root ++ "/" ++ (afterExtract root w fn ct bytes).1.filename)
        (.ok (afterExtract root w fn ct bytes).1.size) ∈
        (afterExtract root w fn ct bytes).2) ∧
    ((afterExtract root w fn ct bytes).1.success = false →
      (afterExtract root w fn ct bytes).1.size = 0 ∧
      (afterExtract root w fn ct bytes).1.reason = "I/O error") := by
  rcases hw : w (root ++ "/" ++ fn) bytes with e | n <;> simp [afterExtract, hw]

theorem processJsonItem_cases (env : JsonEnv) (item : ImageUploadRequest) :
    (∃ fn ct bytes, processJsonItem env item =
        afterExtract env.uploadRoot env.write fn ct bytes) ∨
    (∃ e item', processJsonItem env item = (failureResult item' e, []) ∧
      (e = "nor url or data are specified" ∨ e = "no image data" ∨
       e = "not an image" ∨ e = "invalid content length in response" ∨
       e = "failed to fill whole buffer" ∨ e = "image URL not specified" ∨
       (∃ s, env.decode s = .error e) ∨ (∃ u, env.http u = .error e))) := by
  obtain ⟨f, c, ur, d⟩ := item
  rcases d with _ | dv
  · rcases ur with _ | uv
    · exact Or.inr ⟨_, ⟨f, c, none, none⟩, rfl, Or.inl rfl⟩
    · rcases hh : env.http uv with he | resp
      · refine Or.inr ⟨he, ⟨f, c, some uv, none⟩, ?_, ?_⟩
        · simp [processJsonItem, image_from_url, hh, failureResult]
        · exact Or.inr (Or.inr (Or.inr (Or.inr (Or.inr (Or.inr (Or.inr ⟨uv, hh⟩))))))
      · by_cases hb : listStartsWith ((resp.content_type.getD (c.getD "")).data)
            "image/".data = true
        · rcases hcl : resp.content_length with _ | cl
          · refine Or.inr ⟨_, ⟨f, none, some uv, none⟩, ?_,
              Or.inr (Or.inr (Or.inr (Or.inl rfl)))⟩
            simp [processJsonItem, image_from_url, hh, hcl, hb, failureResult]
          · rcases hp : parseUsize cl with _ | n
            · refine Or.inr ⟨_, ⟨f, none, some uv, none⟩, ?_,
                Or.inr (Or.inr (Or.inr (Or.inl rfl)))⟩
              simp [processJsonItem, image_from_url, hh, hcl, hp, hb, failureResult]
            · by_cases hle : n ≤ resp.body.length
              · left
                have hstep : processJsonItem env ⟨f, c, some uv, none⟩ =
                    afterExtract env.uploadRoot env.write
                      (match f with
                       | some ff => normalize_image_filename env.now ff
                           (resp.content_type.getD (c.getD ""))
                       | none => normalize_image_filename env.now
                           (String.mk ((splitOnSlash uv.data).getLastD []))
                           (resp.content_type.getD (c.getD "")))
                      (resp.content_type.getD (c.getD ""))
                      (resp.body.take n) := by
                  simp [processJsonItem, image_from_url, hh, hcl, hp, hb, hle]
                exact ⟨_, _, _, hstep⟩
              · refine Or.inr ⟨_, ⟨f, none, some uv, none⟩, ?_,
                  Or.inr (Or.inr (Or.inr (Or.inr (Or.inl rfl))))⟩
                simp [processJsonItem, image_from_url, hh, hcl, hp, hb, hle,
                  failureResult]
        · refine Or.inr ⟨_, ⟨f, none, some uv, none⟩, ?_,
            Or.inr (Or.inr (Or.inl rfl))⟩
          simp [processJsonItem, image_from_url, hh, hb, failureResult]
  · rcases hd : env.decode dv with he | bytes
    · refine Or.inr ⟨he, ⟨f, none, ur, some dv⟩, ?_,
        Or.inr (Or.inr (Or.inr (Or.inr (Or.inr (Or.inr (Or.inl ⟨dv, hd⟩))))))⟩
      simp [processJsonItem, image_from_base64_data, hd, failureResult]
    · left
      have hstep : processJsonItem env ⟨f, c, ur, some dv⟩ =
          afterExtract env.uploadRoot env.write
            (match f with
             | some ff => normalize_image_filename env.now ff
                 (c.getD "application/octet-stream")
             | none => normalize_image_filename env.now ""
                 (c.getD "application/octet-stream"))
            (c.getD "application/octet-stream") bytes := by
        simp [processJsonItem, image_from_base64_data, hd]
      exact ⟨_, _, _, hstep⟩

theorem processJsonItem_invariant (env : JsonEnv) (hgood : env.goodErrors)
    (item : ImageUploadRequest) :
    ((processJsonItem env item).1.success = true →
      (processJsonItem env item).1.reason = "ok" ∧
      Event.writeAttempt
        (env.uploadRoot ++ "/" ++ (processJsonItem env item).1.filename)
        (.ok (processJsonItem env item).1.size) ∈ (processJsonItem env item).2) ∧
    ((processJsonItem env item).1.success = false →
      (processJsonItem env item).1.size = 0 ∧
      (processJsonItem env item).1.reason ≠ "ok" ∧
      (processJsonItem env item).1.reason ≠ "") := by
  rcases processJsonItem_cases env item with ⟨fn, ct, bytes, heq⟩ | ⟨e, item', heq, hsh⟩
  · rw [heq]
    have hA := afterExtract_invariant env.uploadRoot env.write fn ct bytes
    refine ⟨hA.1, ?_⟩
    intro hs
    obtain ⟨h0, hio⟩ := hA.2 hs
    refine ⟨h0, ?_, ?_⟩
    · rw [hio]; decide
    · rw [hio]; decide
  · rw [heq]
    have he1 : e ≠ "ok" ∧ e ≠ "" := by
      rcases hsh with h | h | h | h | h | h | ⟨s, hs⟩ | ⟨u, hu⟩
      · subst h; exact ⟨by decide, by decide⟩
      · subst h; exact ⟨by decide, by decide⟩
      · subst h; exact ⟨by decide, by decide⟩
      · subst h; exact ⟨by decide, by decide⟩
      · subst h; exact ⟨by decide, by decide⟩
      · subst h; exact ⟨by decide, by decide⟩
      · exact hgood.1 s e hs
      · exact hgood.2 u e hu
    constructor
    · intro h
      simp [failureResult] at h
    · intro _
      exact ⟨rfl, he1.1, he1.2⟩

theorem processMultipartField_invariant (menv : MultipartEnv) (field : MultipartField) :
    ((processMultipartField menv field).1.success = true →
      (processMultipartField menv field).1.reason = "ok" ∧
      Event.writeAttempt
        (menv.uploadRoot ++ "/" ++ (processMultipartField menv field).1.filename)
        (.ok (processMultipartField menv field).1.size) ∈
        (processMultipartField menv field).2) ∧
    ((processMultipartField menv field).1.success = false →
      (processMultipartField menv field).1.size = 0 ∧
      (processMultipartField menv field).1.reason ≠ "ok" ∧
      (processMultipartField menv field).1.reason ≠ "") := by
  rcases hx : image_from_multipart_field menv.now field with e | ⟨fn, ct⟩
  · have he : e = "no image data" := by
      obtain ⟨nm, fl, ct0, dt⟩ := field
      rcases ct0 with _ | raw
      · simp [image_from_multipart_field] at hx
        exact hx.symm
      · by_cases hb : listStartsWith (mimeToString raw).data "image/".data = true
        · simp [image_from_multipart_field, hb] at hx
        · simp [image_from_multipart_field, hb] at hx
          exact hx.symm
    subst he
    have hrw : processMultipartField menv field =
        ({ filename := field.name,
           content_type := (field.content_type.map mimeToString).getD "",
           size := 0, success := false, reason := "no image data" }, []) := by
      simp [processMultipartField, hx]
    rw [hrw]
    constructor
    · intro h
      simp at h
    · intro _
      refine ⟨rfl, ?_, ?_⟩
      · show ("no image data" : String) ≠ "ok"
        decide
      · show ("no image data" : String) ≠ ""
        decide
  · have hrw : processMultipartField menv field =
        afterExtract menv.uploadRoot menv.write fn ct field.data := by
      simp [processMultipartField, hx]
    rw [hrw]
    have hA := afterExtract_invariant menv.uploadRoot menv.write fn ct field.data
    refine ⟨hA.1, ?_⟩
    intro hs
    obtain ⟨h0, hio⟩ := hA.2 hs
    refine ⟨h0, ?_, ?_⟩
    · rw [hio]; decide
    · rw [hio]; decide

/-- C3: every outcome produced by either handler satisfies the invariant:
`success = true` implies `reason = "ok"` and `size` equal to the byte count
reported by the corresponding (successful) `write_image_data` call recorded
in the trace; `success = false` implies `size = 0` and a reason that is
neither `"ok"` nor empty — under the premise that the decode/transport
oracles report non-empty, non-`"ok"` error messages, which the real
collaborators do. -/
theorem claim_C3_outcome_invariant (env : JsonEnv) (menv : MultipartEnv)
    (hgood : env.goodErrors) (items : List ImageUploadRequest)
    (fields : List MultipartField) :
    (∀ r ∈ (handle_json_images_post env items).1,
      (r.success = true → r.reason = "ok" ∧
        Event.writeAttempt (env.uploadRoot ++ "/" ++ r.filename) (.ok r.size) ∈
          (handle_json_images_post env items).2) ∧
      (r.success = false → r.size = 0 ∧ r.reason ≠ "ok" ∧ r.reason ≠ "")) ∧
    (∀ r ∈ (handle_multipart_images_post menv fields).1,
      (r.success = true → r.reason = "ok" ∧
        Event.writeAttempt (menv.uploadRoot ++ "/" ++ r.filename) (.ok r.size) ∈
          (handle_multipart_images_post menv fields).2) ∧
      (r.success = false → r.size = 0 ∧ r.reason ≠ "ok" ∧ r.reason ≠ "")) := by
  constructor
  · intro r hr
    rw [handle_json_images_post, (jsonLoop_spec env items [] []).1] at hr
    simp only [List.nil_append] at hr
    obtain ⟨item, hitem, hreq⟩ := List.mem_map.mp hr
    subst hreq
    have hinv := processJsonItem_invariant env hgood item
    refine ⟨?_, hinv.2⟩
    intro hs
    obtain ⟨hr1, hr2⟩ := hinv.1 hs
    refine ⟨hr1, ?_⟩
    rw [handle_json_images_post, (jsonLoop_spec env items [] []).2]
    simp only [List.nil_append]
    exact List.mem_flatMap.mpr ⟨item, hitem, hr2⟩
  · intro r hr
    rw [handle_multipart_images_post, (multipartLoop_spec menv fields [] []).1] at hr
    simp only [List.nil_append] at hr
    obtain ⟨field, hfield, hreq⟩ := List.mem_map.mp hr
    subst hreq
    have hinv := processMultipartField_invariant menv field
    refine ⟨?_, hinv.2⟩
    intro hs
    obtain ⟨hr1, hr2⟩ := hinv.1 hs
    refine ⟨hr1, ?_⟩
    rw [handle_multipart_images_post, (multipartLoop_spec menv fields [] []).2]
    simp only [List.nil_append]
    exact List.mem_flatMap.mpr ⟨field, hfield, hr2⟩

theorem envW_goodErrors : envW.goodErrors := by
  constructor
  · intro s e h
    simp [envW] at h
  · intro u e h
    simp [envW] at h
    subst h
    exact ⟨by decide, by decide⟩

/-- Concrete instance of C3: the successful outcome of the scenario batch
carries reason `"ok"` and a size equal to the byte count of its recorded
write. -/
theorem claim_C3_witness :
    Event.writeAttempt ("up" ++ "/" ++ "valid_base64.bin") (.ok 4) ∈
      (handle_json_images_post envW itemsW).2 := by
  have h := (claim_C3_outcome_invariant envW ⟨"up", tsW, fun _ bytes => .ok bytes.length⟩
    envW_goodErrors itemsW []).1
    { filename := "valid_base64.bin", content_type := "application/octet-stream",
      size := 4, success := true, reason := "ok" } (by decide)
  exact (h.1 rfl).2

theorem base64_keeps (decode : String → Except String (List Nat)) (now : Timestamp)
    (item : ImageUploadRequest) :
    (image_from_base64_data decode now item).2.filename = item.filename ∧
    ((image_from_base64_data decode now item).2.content_type = item.content_type ∨
      (image_from_base64_data decode now item).2.content_type = none) := by
  obtain ⟨f, c, u, d⟩ := item
  rcases d with _ | dv
  · simp [image_from_base64_data]
  · rcases hd : decode dv with e | bytes <;> simp [image_from_base64_data, hd]

theorem url_keeps (http : String → Except String HttpResponse) (now : Timestamp)
    (item : ImageUploadRequest) :
    (image_from_url http now item).2.filename = item.filename ∧
    ((image_from_url http now item).2.content_type = item.content_type ∨
      (image_from_url http now item).2.content_type = none) := by
  obtain ⟨f, c, u, d⟩ := item
  rcases u with _ | uv
  · simp [image_from_url]
  · rcases hh : http uv with e | resp
    · simp [image_from_url, hh]
    · by_cases hb : listStartsWith ((resp.content_type.getD (c.getD "")).data)
          "image/".data = true
      · rcases hcl : resp.content_length with _ | cl
        · simp [image_from_url, hh, hcl, hb]
        · rcases hp : parseUsize cl with _ | n
          · simp [image_from_url, hh, hcl, hp, hb]
          · by_cases hle : n ≤ resp.body.length <;>
              simp [image_from_url, hh, hcl, hp, hb, hle]
      · simp [image_from_url, hh, hb]

/-- C8 counterexample: on a multipart extractor failure the outcome's
filename is the field NAME, not the field's declared filename, even when one
is declared — refuting the claim that the failure outcome carries the item's
declared filename. -/
theorem claim_C8_counterexample :
    (processMultipartField ⟨"up", ⟨19, 8, 15, 12, 30, 45, 123456⟩,
        fun _ bytes => .ok bytes.length⟩
      ⟨"f", some "doc.txt", some "text/plain", [1]⟩).1.filename = "f" ∧
    (⟨"f", some "doc.txt", some "text/plain", [1]⟩ : MultipartField).filename =
      some "doc.txt" ∧
    ("f" : String) ≠ "doc.txt" := by
  refine ⟨rfl, rfl, by decide⟩

/-- C8 (amended): for every item whose extractor fails, the handler appends a
failure outcome with `size = 0` and the extractor's reason, and performs no
write and spawns no thumbnail task; the outcome's filename is the declared
filename (or empty) for JSON items but the FIELD NAME for multipart fields;
the content type is the declared one as far as the extractor has left it
intact — the base64 extractor always consumes it, and the URL extractor
consumes it once a response arrives, so those failure outcomes may carry an
empty content type even when one was declared. -/
theorem claim_C8_failure_outcomes (env : JsonEnv) (menv : MultipartEnv)
    (item : ImageUploadRequest) (field : MultipartField) :
    (∀ e item', item.data.isSome = true →
      image_from_base64_data env.decode env.now item = (.error e, item') →
      processJsonItem env item =
        ({ filename := item.filename.getD "",
           content_type := item'.content_type.getD "", size := 0,
           success := false, reason := e }, []) ∧
      (item'.content_type = item.content_type ∨ item'.content_type = none)) ∧
    (∀ e item', item.data = none → item.url.isSome = true →
      image_from_url env.http env.now item = (.error e, item') →
      processJsonItem env item =
        ({ filename := item.filename.getD "",
           content_type := item'.content_type.getD "", size := 0,
           success := false, reason := e }, []) ∧
      (item'.content_type = item.content_type ∨ item'.content_type = none)) ∧
    (∀ e, image_from_multipart_field menv.now field = .error e →
      processMultipartField menv field =
        ({ filename := field.name,
           content_type := (field.content_type.map mimeToString).getD "",
           size := 0, success := false, reason := e }, [])) := by
  refine ⟨?_, ?_, ?_⟩
  · intro e item' hd hext
    have hk := base64_keeps env.decode env.now item
    rw [hext] at hk
    have hk1 : item'.filename = item.filename := hk.1
    refine ⟨?_, hk.2⟩
    simp [processJsonItem, hd, hext, failureResult, hk1]
  · intro e item' hd hu hext
    have hk := url_keeps env.http env.now item
    rw [hext] at hk
    have hk1 : item'.filename = item.filename := hk.1
    refine ⟨?_, hk.2⟩
    simp [processJsonItem, hd, hu, hext, failureResult, hk1]
  · intro e hext
    simp [processMultipartField, hext]

/-- Concrete instance of the amended C8: a base64 decode failure yields the
declared-filename/cleared-content-type outcome with the decoder's message
and no write or spawn events, and a non-image multipart field yields the
field-name outcome with reason `"no image data"` and no events. -/
theorem claim_C8_witness :
    processJsonItem
      ⟨"up", tsW, fun _ => .error "Invalid byte 33, offset 0.",
        fun _ => .error "net down", fun _ bytes => .ok bytes.length⟩
      ⟨some "x.png", some "image/png", none, some "!!!"⟩ =
      ({ filename := "x.png", content_type := "", size := 0, success := false,
         reason := "Invalid byte 33, offset 0." }, []) ∧
    processMultipartField ⟨"up", tsW, fun _ bytes => .ok bytes.length⟩
      ⟨"f", some "doc.txt", some "text/plain", [1]⟩ =
      ({ filename := "f", content_type := "text/plain", size := 0,
         success := false, reason := "no image data" }, []) := by
  constructor
  · exact ((claim_C8_failure_outcomes
      ⟨"up", tsW, fun _ => .error "Invalid byte 33, offset 0.",
        fun _ => .error "net down", fun _ bytes => .ok bytes.length⟩
      ⟨"up", tsW, fun _ bytes => .ok bytes.length⟩
      ⟨some "x.png", some "image/png", none, some "!!!"⟩
      ⟨"f", some "doc.txt", some "text/plain", [1]⟩).1
      "Invalid byte 33, offset 0."
      ⟨some "x.png", none, none, some "!!!"⟩ rfl rfl).1
  · exact (claim_C8_failure_outcomes
      ⟨"up", tsW, fun _ => .error "Invalid byte 33, offset 0.",
        fun _ => .error "net down", fun _ bytes => .ok bytes.length⟩
      ⟨"up", tsW, fun _ bytes => .ok bytes.length⟩
      ⟨some "x.png", some "image/png", none, some "!!!"⟩
      ⟨"f", some "doc.txt", some "text/plain", [1]⟩).2.2
      "no image data" rfl

end Trlogic
